import Mathlib

/- Verification development for the meter of rust-metrics (src/meter.rs).
   The EWMA estimator and the Metric export value live in source files that
   are not part of the provided sources (src/ewma.rs, src/metric.rs); they
   are modelled from the specification, as marked on each definition.
   f64 arithmetic is modelled by real arithmetic, except that division by
   zero is given its IEEE-754 meaning explicitly (see F64 below). -/

/-- Modelled from the spec: the fixed 5-second tick interval
(spec section 4.1: "The implementation fixes tickIntervalSeconds = 5"). -/
def tickIntervalSeconds : ℝ := 5

/-- Modelled from the spec: the EWMA estimator of src/ewma.rs, which is not
in the provided sources.  State per spec section 3: decay constant alpha,
accumulated uncounted events since the last tick, current rate, and an
initialized flag. -/
structure EWMA where
  alpha : ℝ
  uncounted : ℤ
  rate : ℝ
  init : Bool

namespace EWMA

/-- Modelled from the spec (section 4.1): `forWindow(minutes)` constructs an
estimator with decay constant alpha = 1 - e^(-tickIntervalSeconds/(minutes*60)),
empty accumulator, zero rate, not yet ticked. -/
noncomputable def forWindow (minutes : ℕ) : EWMA :=
  { alpha := 1 - Real.exp (-(tickIntervalSeconds / (60 * (minutes : ℝ)))),
    uncounted := 0,
    rate := 0,
    init := false }

/-- Modelled from the spec (section 4.1): `update(n)` adds `n` to the
uncounted accumulator; no decay is applied here. -/
def update (e : EWMA) (n : ℤ) : EWMA :=
  { e with uncounted := e.uncounted + n }

/-- Modelled from the spec (section 4.1): `tick()` computes
`instantRate = uncounted / tickIntervalSeconds`, resets the accumulator, and
either installs the instant rate directly (first tick) or blends it into the
current rate with the decay constant. -/
noncomputable def tick (e : EWMA) : EWMA :=
  let instantRate : ℝ := (e.uncounted : ℝ) / tickIntervalSeconds
  if e.init then
    { e with uncounted := 0, rate := e.rate + e.alpha * (instantRate - e.rate) }
  else
    { e with uncounted := 0, rate := instantRate, init := true }

end EWMA

/-- The windows of the three EWMA instances of a StdMeter, in minutes
(src/meter.rs line 74: `[EWMA::m01rate(), EWMA::m05rate(), EWMA::m15rate()]`). -/
def windowMinutes : Fin 3 → ℕ
  | 0 => 1
  | 1 => 5
  | 2 => 15

/-- MeterSnapshot (src/meter.rs lines 10-14): count, three rates, mean rate. -/
structure MeterSnapshot where
  count : ℤ
  rates : Fin 3 → ℝ
  mean : ℝ

/-- Modelled from the spec: the export value of the Metric capability
(src/metric.rs is not in the provided sources); spec section 3 names Counter,
Gauge and Meter variants. -/
inductive MetricValue where
  | counter : ℤ → MetricValue
  | gauge : ℝ → MetricValue
  | meter : MeterSnapshot → MetricValue

/-- Result of an IEEE-754 f64 operation, as far as the meter needs it: a
finite value, a signed infinity (`inf true` is negative infinity), or NaN. -/
inductive F64 where
  | fin : ℝ → F64
  | inf : Bool → F64
  | nan : F64

/-- IEEE-754 division of two i64 values converted to f64
(`x as f64 / y as f64`): division by zero yields a signed infinity (0/0
yields NaN); a finite result is modelled by the exact real quotient. -/
noncomputable def f64divInt (x y : ℤ) : F64 :=
  if y = 0 then (if x = 0 then F64.nan else F64.inf (x < 0))
  else F64.fin ((x : ℝ) / (y : ℝ))

/-- The returned F64 is a finite value within `eps` of `c`. -/
def F64.isWithin (x : F64) (c eps : ℝ) : Prop :=
  match x with
  | .fin r => |r - c| < eps
  | _ => False

/-- StdMeter state (src/meter.rs lines 55-63).  The clock is not stored;
each operation receives the value its single `clock.now()` call returns as
an explicit argument (ClockedMeter below re-attaches a clock).  The atomic
i64 fields are modelled as plain integers: this development is the
sequential semantics, and the spec (section 7) puts counter overflow out of
scope. -/
structure StdMeter where
  birthstamp : ℤ
  prev : ℤ
  count : ℤ
  rates : Fin 3 → EWMA

/-- The state `StdMeter::with` (src/meter.rs lines 66-76) builds once the
constructor's single clock call has returned `birthstamp`: prev equals the
birthstamp, count is 0, and the three standard EWMA windows are fresh. -/
noncomputable def StdMeter.init (birthstamp : ℤ) : StdMeter :=
  { birthstamp := birthstamp,
    prev := birthstamp,
    count := 0,
    rates := fun i => EWMA.forWindow (windowMinutes i) }

/-- The inner loop of `tick_maybe` (src/meter.rs lines 89-91): tick every
EWMA once. -/
noncomputable def tickAll (rs : Fin 3 → EWMA) : Fin 3 → EWMA :=
  fun i => (rs i).tick

/-- `StdMeter::tick_maybe` (src/meter.rs lines 78-95) under sequential
semantics: the single clock read is the argument `now`, and with no
interleaving the compare-and-swap of `prev` against the value just loaded
always succeeds.  Rust's truncating i64 `/` and `%` agree with Lean's `/`
and `%` on the positive operands the guard `elapsed > 5` ensures.  The
`for _ in 0..ticks` loop is `Nat.repeat` of the inner loop. -/
noncomputable def StdMeter.tick_maybe (m : StdMeter) (now : ℤ) : StdMeter :=
  let old := m.prev
  let elapsed := now - old
  if 5 < elapsed then
    let ticks := elapsed / 5
    { m with prev := now - elapsed % 5,
             rates := Nat.repeat tickAll ticks.toNat m.rates }
  else m

namespace Meter

/-- `Meter::count` for StdMeter (src/meter.rs lines 105-107): the atomic
count, paired with the meter state afterwards (unchanged) so that the
absence of side effects is a statement. -/
def count (m : StdMeter) : ℤ × StdMeter :=
  (m.count, m)

/-- `Meter::mean_rate` (src/meter.rs lines 109-119): 0 when the count is 0;
otherwise the f64 division `count as f64 / elapsed as f64` with
`elapsed = now - birthstamp`.  Reads the clock once, mutates nothing. -/
noncomputable def mean_rate (m : StdMeter) (now : ℤ) : F64 × StdMeter :=
  (if m.count = 0 then F64.fin 0 else f64divInt m.count (now - m.birthstamp), m)

/-- `Meter::m01rate` (src/meter.rs lines 121-124): tick catch-up, then the
first EWMA's rate. -/
noncomputable def m01rate (m : StdMeter) (now : ℤ) : ℝ × StdMeter :=
  let m1 := m.tick_maybe now
  ((m1.rates 0).rate, m1)

/-- `Meter::m05rate` (src/meter.rs lines 126-129). -/
noncomputable def m05rate (m : StdMeter) (now : ℤ) : ℝ × StdMeter :=
  let m1 := m.tick_maybe now
  ((m1.rates 1).rate, m1)

/-- `Meter::m15rate` (src/meter.rs lines 131-134). -/
noncomputable def m15rate (m : StdMeter) (now : ℤ) : ℝ × StdMeter :=
  let m1 := m.tick_maybe now
  ((m1.rates 2).rate, m1)

/-- `Meter::mark` (src/meter.rs lines 136-144): tick catch-up first, then
add `value` to the count, then `update(value)` on every EWMA. -/
noncomputable def mark (m : StdMeter) (now : ℤ) (value : ℤ) : StdMeter :=
  let m1 := m.tick_maybe now
  { m1 with count := m1.count + value,
            rates := fun i => (m1.rates i).update value }

end Meter

/-- `Metric::export_metric` for StdMeter (src/meter.rs lines 147-151):
`unimplemented!()` always panics; the panic is modelled as `none`, a normal
return as `some`. -/
def Metric.export_metric (_m : StdMeter) : Option MetricValue :=
  none

/-- A StdMeter together with its owned clock, the clock modelled as the
stream of values successive `now()` calls return, plus the number of calls
already made (mirroring the test MockClock's counter, src/meter.rs lines
179-191). -/
structure ClockedMeter where
  clock : ℕ → ℤ
  calls : ℕ
  meter : StdMeter

namespace ClockedMeter

/-- `StdMeter::with(clock)` (src/meter.rs lines 66-76): one clock call for
the birthstamp. -/
noncomputable def with' (clock : ℕ → ℤ) : ClockedMeter :=
  { clock := clock, calls := 1, meter := StdMeter.init (clock 0) }

/-- `mark` through the owned clock: `tick_maybe` makes the one clock call. -/
noncomputable def mark (c : ClockedMeter) (v : ℤ) : ClockedMeter :=
  { c with calls := c.calls + 1, meter := Meter.mark c.meter (c.clock c.calls) v }

/-- `count()` makes no clock call. -/
def count (c : ClockedMeter) : ℤ :=
  (Meter.count c.meter).1

/-- `mean_rate()` through the owned clock: one clock call. -/
noncomputable def mean_rate (c : ClockedMeter) : F64 × ClockedMeter :=
  ((Meter.mean_rate c.meter (c.clock c.calls)).1, { c with calls := c.calls + 1 })

/-- `m01rate()` through the owned clock: one clock call inside `tick_maybe`. -/
noncomputable def m01rate (c : ClockedMeter) : ℝ × ClockedMeter :=
  let r := Meter.m01rate c.meter (c.clock c.calls)
  (r.1, { c with calls := c.calls + 1, meter := r.2 })

/-- `m05rate()` through the owned clock. -/
noncomputable def m05rate (c : ClockedMeter) : ℝ × ClockedMeter :=
  let r := Meter.m05rate c.meter (c.clock c.calls)
  (r.1, { c with calls := c.calls + 1, meter := r.2 })

/-- `m15rate()` through the owned clock. -/
noncomputable def m15rate (c : ClockedMeter) : ℝ × ClockedMeter :=
  let r := Meter.m15rate c.meter (c.clock c.calls)
  (r.1, { c with calls := c.calls + 1, meter := r.2 })

end ClockedMeter

/-- The test clock (src/meter.rs lines 179-191): 0 on the first two calls,
10 on every later call. -/
def mockClock : ℕ → ℤ :=
  fun n => if n < 2 then 0 else 10

/-- One meter operation together with the clock value its single clock read
returns (operations that read no clock carry none). -/
inductive MeterOp where
  | mark : ℤ → ℤ → MeterOp
  | count : MeterOp
  | meanRate : ℤ → MeterOp
  | m01 : ℤ → MeterOp
  | m05 : ℤ → MeterOp
  | m15 : ℤ → MeterOp

/-- The state effect of one operation (the values getters return are defined
elsewhere; only the state effect matters for state invariants). -/
noncomputable def MeterOp.apply (m : StdMeter) : MeterOp → StdMeter
  | .mark now v => Meter.mark m now v
  | .count => (Meter.count m).2
  | .meanRate now => (Meter.mean_rate m now).2
  | .m01 now => (Meter.m01rate m now).2
  | .m05 now => (Meter.m05rate m now).2
  | .m15 now => (Meter.m15rate m now).2

/-- Run a sequence of operations. -/
noncomputable def applyOps (m : StdMeter) (ops : List MeterOp) : StdMeter :=
  ops.foldl MeterOp.apply m

/-- A mark operation carries a non-negative value. -/
def MeterOp.nonneg : MeterOp → Bool
  | .mark _ v => decide (0 ≤ v)
  | _ => true

/-- One thread's observation in a tick catch-up round: the values its
`clock.now()` call and its load of `prev` returned (src/meter.rs lines
79-80), all threads having performed their loads before any
compare-and-swap ran. -/
structure TickAttempt where
  now : ℤ
  old : ℤ

/-- Shared state while the threads' compare-and-swaps serialize: the `prev`
cell, the shared EWMA states, how many threads' CAS succeeded, and the total
number of tick rounds applied (each round ticks all three EWMAs once). -/
structure RoundState where
  prev : ℤ
  rates : Fin 3 → EWMA
  winners : ℕ
  tickRounds : ℤ

/-- What one thread executes after its loads (src/meter.rs lines 83-94), as
one serialization step: test `elapsed > 5`, compare-and-swap on `prev`
against the `old` it loaded, and on success apply `elapsed / 5` tick
rounds. -/
noncomputable def casStep (s : RoundState) (a : TickAttempt) : RoundState :=
  let elapsed := a.now - a.old
  if 5 < elapsed then
    if s.prev = a.old then
      { prev := a.now - elapsed % 5,
        rates := Nat.repeat tickAll (elapsed / 5).toNat s.rates,
        winners := s.winners + 1,
        tickRounds := s.tickRounds + elapsed / 5 }
    else s
  else s

/-- Serialize the post-load steps of a list of threads against a shared
`prev` cell holding `prev0` and shared EWMA states `rs`. -/
noncomputable def runRound (prev0 : ℤ) (rs : Fin 3 → EWMA) (ts : List TickAttempt) :
    RoundState :=
  ts.foldl casStep { prev := prev0, rates := rs, winners := 0, tickRounds := 0 }

/- ------------------------------------------------------------------ -/
/- Helper lemmas                                                      -/
/- ------------------------------------------------------------------ -/

theorem repeat_tickAll_apply (n : ℕ) (rs : Fin 3 → EWMA) (i : Fin 3) :
    Nat.repeat tickAll n rs i = EWMA.tick^[n] (rs i) := by
  induction n with
  | zero => rfl
  | succ k ih =>
      show tickAll (Nat.repeat tickAll k rs) i = EWMA.tick^[k + 1] (rs i)
      rw [Function.iterate_succ_apply']
      simp [tickAll, ih]

theorem tick_maybe_of_le (m : StdMeter) (now : ℤ) (h : now - m.prev ≤ 5) :
    m.tick_maybe now = m := by
  unfold StdMeter.tick_maybe
  exact if_neg (by omega)

theorem tick_maybe_of_lt (m : StdMeter) (now : ℤ) (h : 5 < now - m.prev) :
    m.tick_maybe now =
      { m with prev := now - (now - m.prev) % 5,
               rates := Nat.repeat tickAll ((now - m.prev) / 5).toNat m.rates } := by
  unfold StdMeter.tick_maybe
  exact if_pos h

theorem tick_maybe_count (m : StdMeter) (now : ℤ) :
    (m.tick_maybe now).count = m.count := by
  by_cases h : 5 < now - m.prev
  · rw [tick_maybe_of_lt m now h]
  · rw [tick_maybe_of_le m now (by omega)]

theorem tick_maybe_birthstamp (m : StdMeter) (now : ℤ) :
    (m.tick_maybe now).birthstamp = m.birthstamp := by
  by_cases h : 5 < now - m.prev
  · rw [tick_maybe_of_lt m now h]
  · rw [tick_maybe_of_le m now (by omega)]

/- ------------------------------------------------------------------ -/
/- C1                                                                 -/
/- ------------------------------------------------------------------ -/

/-- C1: in `tick_maybe` with `elapsed = now - prev`, if `elapsed > 5` the
(sequentially always successful) compare-and-swap moves the last-tick
timestamp to `now - elapsed % 5` and `tick()` is applied to each of the
three EWMA instances exactly `elapsed / 5` times; if `elapsed <= 5` the
state, and in particular the last-tick timestamp, is unchanged and no EWMA
tick is applied. -/
theorem C1_tick_catchup (m : StdMeter) (now : ℤ) :
    (5 < now - m.prev →
      (m.tick_maybe now).prev = now - (now - m.prev) % 5 ∧
      ∀ i, (m.tick_maybe now).rates i =
        EWMA.tick^[((now - m.prev) / 5).toNat] (m.rates i)) ∧
    (now - m.prev ≤ 5 → m.tick_maybe now = m) := by
  constructor
  · intro h
    rw [tick_maybe_of_lt m now h]
    exact ⟨rfl, fun i => repeat_tickAll_apply _ _ _⟩
  · intro h
    exact tick_maybe_of_le m now h

/-- A concrete EWMA state used by witnesses. -/
noncomputable def ewmaW : EWMA :=
  { alpha := 1 / 2, uncounted := 3, rate := 0, init := false }

/-- A concrete meter state used by witnesses: born at 0, never ticked. -/
noncomputable def meterW : StdMeter :=
  { birthstamp := 0, prev := 0, count := 0, rates := fun _ => ewmaW }

theorem C1_tick_catchup_witness :
    (5 < (12 : ℤ) - meterW.prev) ∧
    (meterW.tick_maybe 12).prev = 12 - (12 - meterW.prev) % 5 := by
  refine ⟨by decide, ?_⟩
  exact ((C1_tick_catchup meterW 12).1 (by decide)).1

/- ------------------------------------------------------------------ -/
/- C5                                                                 -/
/- ------------------------------------------------------------------ -/

/-- C5: `mark(value)` first runs tick catch-up, then adds `value` to the
count, then updates each of the three EWMA instances with `value`, and its
only effects on the meter state are the count increment, the EWMA updates,
and whatever the catch-up did: the result is exactly the catch-up state with
the count incremented and the EWMAs updated, the birth timestamp is
untouched, and the last-tick timestamp is exactly the catch-up's. -/
theorem C5_mark_effects (m : StdMeter) (now v : ℤ) :
    Meter.mark m now v =
      { m.tick_maybe now with
          count := (m.tick_maybe now).count + v,
          rates := fun i => ((m.tick_maybe now).rates i).update v } ∧
    (Meter.mark m now v).count = m.count + v ∧
    (Meter.mark m now v).birthstamp = m.birthstamp ∧
    (Meter.mark m now v).prev = (m.tick_maybe now).prev := by
  refine ⟨rfl, ?_, ?_, rfl⟩
  · show (m.tick_maybe now).count + v = m.count + v
    rw [tick_maybe_count]
  · show (m.tick_maybe now).birthstamp = m.birthstamp
    exact tick_maybe_birthstamp m now

/- ------------------------------------------------------------------ -/
/- C8                                                                 -/
/- ------------------------------------------------------------------ -/

/-- C8: each of `m01rate`, `m05rate`, `m15rate` triggers tick catch-up and
returns the corresponding EWMA's rate; the state it leaves behind is exactly
the catch-up state (so only the last-tick timestamp and the EWMA states may
change), with the count and the birth timestamp unchanged; and `count()`
returns the count while modifying no meter state. -/
theorem C8_getters_frame (m : StdMeter) (now : ℤ) :
    (Meter.m01rate m now).1 = ((m.tick_maybe now).rates 0).rate ∧
    (Meter.m05rate m now).1 = ((m.tick_maybe now).rates 1).rate ∧
    (Meter.m15rate m now).1 = ((m.tick_maybe now).rates 2).rate ∧
    (Meter.m01rate m now).2 = m.tick_maybe now ∧
    (Meter.m05rate m now).2 = m.tick_maybe now ∧
    (Meter.m15rate m now).2 = m.tick_maybe now ∧
    (Meter.m01rate m now).2.count = m.count ∧
    (Meter.m01rate m now).2.birthstamp = m.birthstamp ∧
    (Meter.m05rate m now).2.count = m.count ∧
    (Meter.m05rate m now).2.birthstamp = m.birthstamp ∧
    (Meter.m15rate m now).2.count = m.count ∧
    (Meter.m15rate m now).2.birthstamp = m.birthstamp ∧
    Meter.count m = (m.count, m) := by
  refine ⟨rfl, rfl, rfl, rfl, rfl, rfl, ?_, ?_, ?_, ?_, ?_, ?_, rfl⟩ <;>
    first
      | exact tick_maybe_count m now
      | exact tick_maybe_birthstamp m now

/- ------------------------------------------------------------------ -/
/- C9                                                                 -/
/- ------------------------------------------------------------------ -/

/-- C9 counterexample: with the last-tick timestamp at 0 and the clock at 5,
the first `tick_maybe` is a no-op (elapsed = 5 is not > 5), so a second call
observes elapsed = 5, not (previous elapsed) mod 5 = 0 — and 5 is not at
most 4.  This refutes the claim's description of the observed elapsed. -/
theorem C9_counterexample :
    ¬ (5 - (meterW.tick_maybe 5).prev = (5 - meterW.prev) % 5 ∧
       5 - (meterW.tick_maybe 5).prev ≤ 4) := by
  intro h
  have h1 : (meterW.tick_maybe 5).prev = 0 := by
    rw [tick_maybe_of_le meterW 5 (by decide)]
    rfl
  rw [h1] at h
  revert h
  decide

/-- C9 (amended): `tick_maybe` is sequentially idempotent: a second call
reading the same clock value `t` leaves the state unchanged and applies zero
EWMA ticks; the elapsed it observes is (previous elapsed) mod 5 — at most
4 — when the first call performed a catch-up (elapsed > 5), and the
unchanged previous elapsed (at most 5) otherwise. -/
theorem C9_tick_maybe_idempotent (m : StdMeter) (t : ℤ) :
    (m.tick_maybe t).tick_maybe t = m.tick_maybe t ∧
    t - (m.tick_maybe t).prev =
      (if 5 < t - m.prev then (t - m.prev) % 5 else t - m.prev) := by
  by_cases h : 5 < t - m.prev
  · have hprev : (m.tick_maybe t).prev = t - (t - m.prev) % 5 := by
      rw [tick_maybe_of_lt m t h]
    have hmod : (t - m.prev) % 5 < 5 := Int.emod_lt_of_pos _ (by norm_num)
    constructor
    · apply tick_maybe_of_le
      rw [hprev]
      omega
    · rw [hprev, if_pos h]
      ring
  · have heq : m.tick_maybe t = m := tick_maybe_of_le m t (by omega)
    constructor
    · rw [heq]
      exact heq
    · rw [heq, if_neg h]

/- ------------------------------------------------------------------ -/
/- C10                                                                -/
/- ------------------------------------------------------------------ -/

/-- C10: `export_metric` on a StdMeter never returns a value — the body is
`unimplemented!()`, which always panics (modelled as `none`), so no caller
can obtain a `MetricValue` snapshot through the Metric capability. -/
theorem C10_export_metric_panics (m : StdMeter) :
    Metric.export_metric m = none ∧ ∀ v, Metric.export_metric m ≠ some v := by
  exact ⟨rfl, fun v h => Option.noConfusion h⟩

/- ------------------------------------------------------------------ -/
/- C6                                                                 -/
/- ------------------------------------------------------------------ -/

theorem mark_count (m : StdMeter) (now v : ℤ) :
    (Meter.mark m now v).count = m.count + v := by
  show (m.tick_maybe now).count + v = m.count + v
  rw [tick_maybe_count]

theorem op_apply_count_ge (m : StdMeter) (op : MeterOp) (h : op.nonneg = true) :
    m.count ≤ (MeterOp.apply m op).count := by
  cases op with
  | mark now v =>
      have hv : 0 ≤ v := by simpa [MeterOp.nonneg] using h
      have hc := mark_count m now v
      show m.count ≤ (Meter.mark m now v).count
      omega
  | count => exact le_rfl
  | meanRate now => exact le_rfl
  | m01 now =>
      show m.count ≤ (m.tick_maybe now).count
      rw [tick_maybe_count]
  | m05 now =>
      show m.count ≤ (m.tick_maybe now).count
      rw [tick_maybe_count]
  | m15 now =>
      show m.count ≤ (m.tick_maybe now).count
      rw [tick_maybe_count]

/-- C6 counterexample: the claim fails as stated because `mark` accepts any
i64 value: marking -1 strictly decreases the count. -/
theorem C6_counterexample :
    (applyOps (StdMeter.init 0) [MeterOp.mark 0 (-1)]).count <
      (StdMeter.init 0).count := by
  show (Meter.mark (StdMeter.init 0) 0 (-1)).count < (StdMeter.init 0).count
  rw [mark_count]
  omega

/-- C6 (amended): over every sequence of operations whose mark values are
all non-negative, the count is monotonically non-decreasing; a mark with a
negative value decreases it (see the counterexample). -/
theorem C6_count_monotone (m : StdMeter) (ops : List MeterOp)
    (h : ∀ op ∈ ops, op.nonneg = true) :
    m.count ≤ (applyOps m ops).count := by
  induction ops generalizing m with
  | nil => exact le_rfl
  | cons op rest ih =>
      have h1 : op.nonneg = true := h op (List.mem_cons_self _ _)
      have h2 : ∀ o ∈ rest, o.nonneg = true :=
        fun o ho => h o (List.mem_cons_of_mem _ ho)
      show m.count ≤ (applyOps (MeterOp.apply m op) rest).count
      exact le_trans (op_apply_count_ge m op h1) (ih (MeterOp.apply m op) h2)

theorem C6_count_monotone_witness :
    (∀ op ∈ [MeterOp.mark 0 2, MeterOp.m01 6], op.nonneg = true) ∧
    (StdMeter.init 0).count ≤
      (applyOps (StdMeter.init 0) [MeterOp.mark 0 2, MeterOp.m01 6]).count :=
  ⟨by decide, C6_count_monotone (StdMeter.init 0) [MeterOp.mark 0 2, MeterOp.m01 6] (by decide)⟩

/- ------------------------------------------------------------------ -/
/- C4                                                                 -/
/- ------------------------------------------------------------------ -/

theorem mark_at_birth (b : ℤ) (m : StdMeter) (hp : m.prev = b) (v : ℤ) :
    Meter.mark m b v =
      { m with count := m.count + v, rates := fun i => (m.rates i).update v } := by
  have ht : m.tick_maybe b = m := tick_maybe_of_le m b (by omega)
  show { m.tick_maybe b with
           count := (m.tick_maybe b).count + v,
           rates := fun i => ((m.tick_maybe b).rates i).update v } = _
  rw [ht]

theorem foldl_mark_birth (b : ℤ) (vals : List ℤ) (m : StdMeter) (hp : m.prev = b) :
    (vals.foldl (fun s v => Meter.mark s b v) m).count = m.count + vals.sum ∧
    (vals.foldl (fun s v => Meter.mark s b v) m).prev = b ∧
    ∀ i, ((vals.foldl (fun s v => Meter.mark s b v) m).rates i).rate =
      (m.rates i).rate := by
  induction vals generalizing m with
  | nil => exact ⟨by simp, hp, fun i => rfl⟩
  | cons v rest ih =>
      have hm := mark_at_birth b m hp v
      obtain ⟨h1, h2, h3⟩ := ih (Meter.mark m b v) (by rw [hm]; exact hp)
      refine ⟨?_, h2, ?_⟩
      · show (rest.foldl (fun s v => Meter.mark s b v) (Meter.mark m b v)).count =
          m.count + (v :: rest).sum
        rw [h1, mark_count, List.sum_cons]
        ring
      · intro i
        show ((rest.foldl (fun s v => Meter.mark s b v) (Meter.mark m b v)).rates i).rate =
          (m.rates i).rate
        rw [h3 i, hm]
        rfl

/-- C4: for every finite sequence of `mark(v)` calls performed while the
clock stays at the meter's birth timestamp, the count equals the exact sum
of the marked values, and `m01rate`, `m05rate`, `m15rate` (read at that same
clock value) all return 0, no tick having occurred. -/
theorem C4_marks_at_birth (b : ℤ) (vals : List ℤ) :
    (vals.foldl (fun s v => Meter.mark s b v) (StdMeter.init b)).count = vals.sum ∧
    (Meter.m01rate (vals.foldl (fun s v => Meter.mark s b v) (StdMeter.init b)) b).1 = 0 ∧
    (Meter.m05rate (vals.foldl (fun s v => Meter.mark s b v) (StdMeter.init b)) b).1 = 0 ∧
    (Meter.m15rate (vals.foldl (fun s v => Meter.mark s b v) (StdMeter.init b)) b).1 = 0 := by
  obtain ⟨h1, h2, h3⟩ := foldl_mark_birth b vals (StdMeter.init b) rfl
  have ht : (vals.foldl (fun s v => Meter.mark s b v) (StdMeter.init b)).tick_maybe b =
      vals.foldl (fun s v => Meter.mark s b v) (StdMeter.init b) := by
    apply tick_maybe_of_le
    omega
  refine ⟨by rw [h1]; show (0 : ℤ) + vals.sum = vals.sum; ring, ?_, ?_, ?_⟩
  · show (((vals.foldl (fun s v => Meter.mark s b v) (StdMeter.init b)).tick_maybe b).rates 0).rate = 0
    rw [ht, h3 0]
    rfl
  · show (((vals.foldl (fun s v => Meter.mark s b v) (StdMeter.init b)).tick_maybe b).rates 1).rate = 0
    rw [ht, h3 1]
    rfl
  · show (((vals.foldl (fun s v => Meter.mark s b v) (StdMeter.init b)).tick_maybe b).rates 2).rate = 0
    rw [ht, h3 2]
    rfl

/- ------------------------------------------------------------------ -/
/- C2                                                                 -/
/- ------------------------------------------------------------------ -/

/-- C2 counterexample: with 3 events marked and no time elapsed (clock still
at the birth timestamp 0), `mean_rate` does divide by zero: the i64 count
and elapsed are converted to f64 and divided, which at elapsed = 0 is an
IEEE division by zero yielding positive infinity — not the 0 the claim
states. -/
theorem C2_counterexample :
    (Meter.mean_rate (Meter.mark (StdMeter.init 0) 0 3) 0).1 = F64.inf false ∧
    (Meter.mean_rate (Meter.mark (StdMeter.init 0) 0 3) 0).1 ≠ F64.fin 0 := by
  have hc : (Meter.mark (StdMeter.init 0) 0 3).count = 3 := by
    rw [mark_count]
    rfl
  have hb : (Meter.mark (StdMeter.init 0) 0 3).birthstamp = 0 := by
    show ((StdMeter.init 0).tick_maybe 0).birthstamp = 0
    rw [tick_maybe_birthstamp]
    rfl
  have hv : (Meter.mean_rate (Meter.mark (StdMeter.init 0) 0 3) 0).1 = F64.inf false := by
    show (if (Meter.mark (StdMeter.init 0) 0 3).count = 0 then F64.fin 0
      else f64divInt (Meter.mark (StdMeter.init 0) 0 3).count
        (0 - (Meter.mark (StdMeter.init 0) 0 3).birthstamp)) = F64.inf false
    rw [hc, hb, if_neg (by norm_num)]
    norm_num [f64divInt]
  exact ⟨hv, by rw [hv]; exact fun h => F64.noConfusion h⟩

/-- C2 (amended): `mean_rate` returns 0 when the count is 0 (regardless of
elapsed time); when the count is non-zero it returns the IEEE f64 quotient
`count / (now - birth)`: the finite exact quotient when time has elapsed,
and a signed infinity — division by zero, positive for a positive count —
when `now` equals the birth timestamp.  It never mutates the meter. -/
theorem C2_mean_rate (m : StdMeter) (now : ℤ) :
    (m.count = 0 → (Meter.mean_rate m now).1 = F64.fin 0) ∧
    (m.count ≠ 0 → now - m.birthstamp ≠ 0 →
      (Meter.mean_rate m now).1 =
        F64.fin ((m.count : ℝ) / (((now - m.birthstamp) : ℤ) : ℝ))) ∧
    (m.count ≠ 0 → now - m.birthstamp = 0 →
      (Meter.mean_rate m now).1 = F64.inf (decide (m.count < 0))) ∧
    (Meter.mean_rate m now).2 = m := by
  refine ⟨?_, ?_, ?_, rfl⟩
  · intro h
    show (if m.count = 0 then F64.fin 0 else _) = F64.fin 0
    rw [if_pos h]
  · intro h1 h2
    show (if m.count = 0 then F64.fin 0
      else f64divInt m.count (now - m.birthstamp)) = _
    rw [if_neg h1]
    unfold f64divInt
    rw [if_neg h2]
  · intro h1 h2
    show (if m.count = 0 then F64.fin 0
      else f64divInt m.count (now - m.birthstamp)) = _
    rw [if_neg h1]
    unfold f64divInt
    rw [if_pos h2, if_neg h1]

/-- A concrete meter state with count 3 for the C2 witness. -/
noncomputable def meterC2 : StdMeter :=
  { birthstamp := 0, prev := 0, count := 3, rates := fun _ => ewmaW }

theorem C2_mean_rate_witness :
    (meterC2.count ≠ 0 ∧ (10 : ℤ) - meterC2.birthstamp ≠ 0) ∧
    (Meter.mean_rate meterC2 10).1 =
      F64.fin ((meterC2.count : ℝ) / ((((10 : ℤ) - meterC2.birthstamp) : ℤ) : ℝ)) :=
  ⟨⟨by decide, by decide⟩, (C2_mean_rate meterC2 10).2.1 (by decide) (by decide)⟩

/- ------------------------------------------------------------------ -/
/- C7                                                                 -/
/- ------------------------------------------------------------------ -/

theorem casStep_of_ne (s : RoundState) (a : TickAttempt) (h : s.prev ≠ a.old) :
    casStep s a = s := by
  by_cases h5 : 5 < a.now - a.old
  · exact (if_pos h5).trans (if_neg h)
  · exact if_neg h5

theorem casStep_succ (s : RoundState) (a : TickAttempt) (h5 : 5 < a.now - a.old)
    (h : s.prev = a.old) :
    casStep s a =
      { prev := a.now - (a.now - a.old) % 5,
        rates := Nat.repeat tickAll ((a.now - a.old) / 5).toNat s.rates,
        winners := s.winners + 1,
        tickRounds := s.tickRounds + (a.now - a.old) / 5 } :=
  (if_pos h5).trans (if_pos h)

theorem foldl_casStep_stuck (a : TickAttempt) (s : RoundState) (h : s.prev ≠ a.old) :
    ∀ n : ℕ, (List.replicate n a).foldl casStep s = s := by
  intro n
  induction n with
  | zero => rfl
  | succ k ih =>
      show (List.replicate k a).foldl casStep (casStep s a) = s
      rw [casStep_of_ne s a h]
      exact ih

/-- C7: when n >= 1 threads all observe the same `prev` value `old` and the
same clock value `now` with `elapsed = now - old > 5` (every load preceding
every compare-and-swap), then however their post-load steps serialize,
exactly one thread's CAS succeeds, exactly `elapsed / 5` tick rounds are
applied in total across all threads (each round ticking the three shared
EWMAs once) — never more, never fewer — the losers applying zero, and the
shared last-tick timestamp ends at `now - elapsed % 5`. -/
theorem C7_cas_round (old now : ℤ) (n : ℕ) (rs : Fin 3 → EWMA)
    (hn : 0 < n) (h5 : 5 < now - old) :
    (runRound old rs (List.replicate n { now := now, old := old })).winners = 1 ∧
    (runRound old rs (List.replicate n { now := now, old := old })).tickRounds =
      (now - old) / 5 ∧
    (runRound old rs (List.replicate n { now := now, old := old })).rates =
      Nat.repeat tickAll ((now - old) / 5).toNat rs ∧
    (runRound old rs (List.replicate n { now := now, old := old })).prev =
      now - (now - old) % 5 := by
  obtain ⟨k, rfl⟩ : ∃ k, n = k + 1 := ⟨n - 1, by omega⟩
  have hs : casStep { prev := old, rates := rs, winners := 0, tickRounds := 0 }
      { now := now, old := old } =
      { prev := now - (now - old) % 5,
        rates := Nat.repeat tickAll ((now - old) / 5).toNat rs,
        winners := 1,
        tickRounds := (now - old) / 5 } := by
    have h := casStep_succ { prev := old, rates := rs, winners := 0, tickRounds := 0 }
      { now := now, old := old } h5 rfl
    simpa using h
  have hne : now - (now - old) % 5 ≠ old := by omega
  have hrun : runRound old rs (List.replicate (k + 1) { now := now, old := old }) =
      { prev := now - (now - old) % 5,
        rates := Nat.repeat tickAll ((now - old) / 5).toNat rs,
        winners := 1,
        tickRounds := (now - old) / 5 } := by
    show (List.replicate k { now := now, old := old }).foldl casStep
      (casStep { prev := old, rates := rs, winners := 0, tickRounds := 0 }
        { now := now, old := old }) = _
    rw [hs]
    exact foldl_casStep_stuck _ _ hne k
  rw [hrun]
  exact ⟨rfl, rfl, rfl, rfl⟩

theorem C7_cas_round_witness :
    (0 < 2 ∧ 5 < (12 : ℤ) - 0) ∧
    (runRound 0 (fun _ => ewmaW)
      (List.replicate 2 { now := 12, old := 0 })).winners = 1 :=
  ⟨⟨by decide, by decide⟩,
    (C7_cas_round 0 12 2 (fun _ => ewmaW) (by decide) (by decide)).1⟩

/- ------------------------------------------------------------------ -/
/- C3                                                                 -/
/- ------------------------------------------------------------------ -/

/-- The meter of the reference scenario right after construction. -/
noncomputable def cmA : ClockedMeter := ClockedMeter.with' mockClock

/-- After `mark(1)` (clock call 1 returns 0: no catch-up). -/
noncomputable def cmB : ClockedMeter := cmA.mark 1

/-- After `mark(2)` (clock call 2 returns 10: catch-up of 2 ticks). -/
noncomputable def cmC : ClockedMeter := cmB.mark 2

/-- The `mean_rate()` read of the scenario (clock call 3 returns 10). -/
noncomputable def c3mean : F64 × ClockedMeter := cmC.mean_rate

/-- The `m01rate()` read of the scenario (clock call 4 returns 10). -/
noncomputable def c3r01 : ℝ × ClockedMeter := c3mean.2.m01rate

/-- The `m05rate()` read of the scenario (clock call 5 returns 10). -/
noncomputable def c3r05 : ℝ × ClockedMeter := c3r01.2.m05rate

/-- The `m15rate()` read of the scenario (clock call 6 returns 10). -/
noncomputable def c3r15 : ℝ × ClockedMeter := c3r05.2.m15rate

theorem ewma_after_two_ticks (mins : ℕ) :
    ((((EWMA.forWindow mins).update 1).tick).tick).rate =
      Real.exp (-(5 / (60 * (mins : ℝ)))) / 5 := by
  simp [EWMA.forWindow, EWMA.update, EWMA.tick, tickIntervalSeconds]
  ring

theorem le_exp_neg (x : ℝ) : 1 - x ≤ Real.exp (-x) := by
  have h := Real.add_one_le_exp (-x)
  linarith

theorem exp_neg_le (x : ℝ) (hx : 0 < x) : Real.exp (-x) ≤ 1 / (1 + x) := by
  rw [Real.exp_neg]
  have h := Real.add_one_le_exp x
  have h1 : (0 : ℝ) < 1 + x := by linarith
  rw [inv_eq_one_div]
  apply one_div_le_one_div_of_le h1
  linarith

/-- C3: in the reference scenario — a clock returning 0 on its first two
calls and 10 afterwards, `mark(1)` then `mark(2)` — the count is 3, the mean
rate is within 1e-3 of 0.3, and after the elapsed-10-second catch-up (two
5-second ticks, performed by the second mark) the one-, five- and
fifteen-minute rates are within 1e-3 of 0.1840, 0.1966 and 0.1988. -/
theorem C3_reference_scenario :
    cmC.count = 3 ∧
    F64.isWithin c3mean.1 0.3 (1 / 1000) ∧
    |c3r01.1 - 0.1840| < 1 / 1000 ∧
    |c3r05.1 - 0.1966| < 1 / 1000 ∧
    |c3r15.1 - 0.1988| < 1 / 1000 := by
  refine ⟨rfl, ?_, ?_, ?_, ?_⟩
  · have hmean : c3mean.1 = F64.fin (((3 : ℤ) : ℝ) / ((10 : ℤ) : ℝ)) := rfl
    rw [hmean]
    show |((3 : ℤ) : ℝ) / ((10 : ℤ) : ℝ) - 0.3| < 1 / 1000
    norm_num
  · have h01 : c3r01.1 = ((((EWMA.forWindow 1).update 1).tick).tick).rate := rfl
    rw [h01, ewma_after_two_ticks 1]
    have hx : (5 / (60 * ((1 : ℕ) : ℝ))) = 5 / 60 := by norm_num
    rw [hx, abs_lt]
    have h1 := le_exp_neg (5 / 60 : ℝ)
    have h2 := exp_neg_le (5 / 60 : ℝ) (by norm_num)
    constructor <;> nlinarith [h1, h2]
  · have h05 : c3r05.1 = ((((EWMA.forWindow 5).update 1).tick).tick).rate := rfl
    rw [h05, ewma_after_two_ticks 5]
    have hx : (5 / (60 * ((5 : ℕ) : ℝ))) = 1 / 60 := by norm_num
    rw [hx, abs_lt]
    have h1 := le_exp_neg (1 / 60 : ℝ)
    have h2 := exp_neg_le (1 / 60 : ℝ) (by norm_num)
    constructor <;> nlinarith [h1, h2]
  · have h15 : c3r15.1 = ((((EWMA.forWindow 15).update 1).tick).tick).rate := rfl
    rw [h15, ewma_after_two_ticks 15]
    have hx : (5 / (60 * ((15 : ℕ) : ℝ))) = 1 / 180 := by norm_num
    rw [hx, abs_lt]
    have h1 := le_exp_neg (1 / 180 : ℝ)
    have h2 := exp_neg_le (1 / 180 : ℝ) (by norm_num)
    constructor <;> nlinarith [h1, h2]
